import Mathlib

/-!
Verification development for the kiro2api repository.

Shallow embedding of the credential-pool code in src/auth (config.go, auth.go)
and of the handlers in the server package that call it, together with a
spec-modelled frame decoder for the backend event-stream framing (the parser
package is not among the provided sources).

Bytes are modelled as natural numbers, Go strings as Lean Strings, Go slices
as Lean Lists.  Methods that mutate their receiver are modelled as functions
from the receiver state to the state after the call, paired with the returned
error (Go's (T, error) / error returns become Option String here: none = nil
error).  File-system side effects are made explicit as a write trace.
-/

namespace Kiro2api

/-- Embeds src/auth/config.go AuthConfig: the JSON credential record
with fields auth, refreshToken, clientId, clientSecret, disabled. -/
structure AuthConfig where
  authType : String
  refreshToken : String
  clientID : String
  clientSecret : String
  disabled : Bool
  deriving Repr, DecidableEq, Inhabited

/-- Embeds constant AuthMethodSocial in src/auth/config.go. -/
def AuthMethodSocial : String := "Social"

/-- Embeds constant AuthMethodIdC in src/auth/config.go. -/
def AuthMethodIdC : String := "IdC"

/-- Embeds constant defaultConfigFile in src/auth/config.go. -/
def defaultConfigFile : String := "auth_config.json"

/-- The auth-type defaulting step shared by processConfigs and
AuthService.AddConfig: an empty auth type becomes Social. -/
def withDefaultAuthType (config : AuthConfig) : AuthConfig :=
  if config.authType = "" then { config with authType := AuthMethodSocial }
  else config

/-- Embeds src/auth/config.go processConfigs: the per-entry validation loop.
An entry is skipped when its refresh token is empty; an empty auth type is
defaulted to Social; an IdC entry with empty client id or secret is skipped;
a disabled entry is skipped; all surviving entries are kept in order. -/
def processConfigs : List AuthConfig → List AuthConfig
  | [] => []
  | config :: rest =>
    if config.refreshToken = "" then
      processConfigs rest
    else
      let config := withDefaultAuthType config
      if config.authType = AuthMethodIdC ∧
          (config.clientID = "" ∨ config.clientSecret = "") then
        processConfigs rest
      else if config.disabled then
        processConfigs rest
      else
        config :: processConfigs rest

/-- Modelled from the spec: TokenManager (src in the auth package, not among
the provided sources) wraps the ordered credential list; NewTokenManager
builds a fresh pool over exactly the given credentials.  The per-credential
runtime state it tracks (usage counter, expiry, last error) is abstracted
away here; acquisition eligibility is taken as a parameter instead. -/
def NewTokenManager (configs : List AuthConfig) : List AuthConfig := configs

/-- Modelled from the spec: TokenManager.getBestToken performs a
sequential scan over the pool in stored order and returns the first eligible
credential (skipping disabled / exhausted / erroring entries).  Eligibility
depends on runtime state absent from the provided sources, so it is a
parameter; the spec's one refresh attempt only mutates a credential in place
(never adds or removes entries), so it cannot change which credentials are
candidates and is elided. -/
def getBestToken (eligible : AuthConfig → Bool) (pool : List AuthConfig) :
    Option AuthConfig :=
  pool.find? eligible

/-- Embeds the mutable fields of src/auth/auth.go AuthService: the config
slice, plus the credential list the tokenManager currently serves (the
tokenManager itself is rebuilt from or extended with configs, see
AddConfig / RemoveConfig). -/
structure AuthServiceState where
  configs : List AuthConfig
  tmPool : List AuthConfig
  deriving Repr, DecidableEq, Inhabited

/-- One call to os.WriteFile, as performed by SaveConfigsToFile: target path,
the credential list serialized (by encoding/json) as a JSON array of
objects with fields auth, refreshToken, clientId?, clientSecret?, disabled?,
and the file permission bits. -/
structure FileWrite where
  path : String
  data : List AuthConfig
  perm : Nat
  deriving Repr, DecidableEq

/-- Embeds src/auth/config.go SaveConfigsToFile: marshals the config list
and writes it to the given path with permission 0o600. -/
def SaveConfigsToFile (path : String) (configs : List AuthConfig) : FileWrite :=
  { path := path, data := configs, perm := 0o600 }

/-- Result of one AuthService mutating call: the service state after the
call, the returned error (none = nil), and the trace of file writes the call
performed. -/
structure OpResult where
  state : AuthServiceState
  err : Option String
  writes : List FileWrite
  deriving Repr, DecidableEq

/-- Embeds src/auth/auth.go AuthService.AddConfig: reject an empty refresh
token; default an empty auth type to Social; reject IdC without client id
and secret; otherwise append to the config list and extend the
tokenManager.  The method performs no file write. -/
def AddConfig (as : AuthServiceState) (config : AuthConfig) : OpResult :=
  if config.refreshToken = "" then
    { state := as, err := some "refreshToken must not be empty", writes := [] }
  else
    let config := withDefaultAuthType config
    if config.authType = AuthMethodIdC ∧
        (config.clientID = "" ∨ config.clientSecret = "") then
      { state := as, err := some "IdC auth requires clientId and clientSecret",
        writes := [] }
    else
      { state := { configs := as.configs ++ [config],
                   tmPool := as.tmPool ++ [config] },
        err := none, writes := [] }

/-- Embeds src/auth/auth.go AuthService.RemoveConfig: reject an index that is
negative or not below the config count, leaving the state untouched;
otherwise drop the entry at that index (Go append(configs[:index],
configs[index+1:]...)) and rebuild the tokenManager from the remaining
configs.  The method performs no file write. -/
def RemoveConfig (as : AuthServiceState) (index : Int) : OpResult :=
  if index < 0 ∨ (as.configs.length : Int) ≤ index then
    { state := as, err := some "invalid config index", writes := [] }
  else
    let newConfigs :=
      as.configs.take index.toNat ++ as.configs.drop (index.toNat + 1)
    { state := { configs := newConfigs, tmPool := NewTokenManager newConfigs },
      err := none, writes := [] }

/-- Embeds src/auth/auth.go AuthService.GetConfigCount. -/
def GetConfigCount (as : AuthServiceState) : Nat := as.configs.length

/-- Embeds src/auth/auth.go AuthService.HasAvailableToken:
len(as.configs) > 0. -/
def HasAvailableToken (as : AuthServiceState) : Bool :=
  decide (0 < as.configs.length)

/-- The outcomes of Go's encoding/json json.Unmarshal (standard library,
external to the repository) on a given input string, when unmarshalling
into []AuthConfig respectively into AuthConfig. -/
structure JsonUnmarshal where
  asArray : String → Option (List AuthConfig)
  asObject : String → Option AuthConfig

/-- Embeds src/auth/config.go parseJSONConfig: try to unmarshal the string
as an array of configs; if that fails, try a single object and wrap it in a
one-element list; if that also fails, return an error. -/
def parseJSONConfig (ju : JsonUnmarshal) (jsonData : String) :
    Except String (List AuthConfig) :=
  match ju.asArray jsonData with
  | some configs => Except.ok configs
  | none =>
    match ju.asObject jsonData with
    | some single => Except.ok [single]
    | none => Except.error "invalid JSON format"

/-- The pieces of the process environment and file system consulted by
loadConfigsWithPath: the KIRO_AUTH_TOKEN variable, whether os.Stat succeeds
on a path with a non-directory, and os.ReadFile. -/
structure LoadEnv where
  kiroAuthToken : String
  statFileOk : String → Bool
  readFile : String → Option String

/-- Embeds src/auth/config.go loadConfigsFromFile: read the file, parse it
with parseJSONConfig, and validate via processConfigs; an empty parse or an
empty valid set degrade to an empty pool, read or parse failures are
errors. -/
def loadConfigsFromFile (ju : JsonUnmarshal) (env : LoadEnv) (path : String) :
    Except String (List AuthConfig) :=
  match env.readFile path with
  | none => Except.error "failed to read config file"
  | some content =>
    match parseJSONConfig ju content with
    | Except.error e => Except.error ("failed to parse config file: " ++ e)
    | Except.ok configs =>
      if configs.length = 0 then Except.ok []
      else
        let validConfigs := processConfigs configs
        if validConfigs.length = 0 then Except.ok [] else Except.ok validConfigs

/-- Embeds src/auth/config.go loadConfigsWithPath: priority 1 is the file
named by KIRO_AUTH_TOKEN when it exists, priority 2 the default config
file, priority 3 the variable's value parsed as a JSON string (an unset
variable yields an empty pool).  Returns the loaded configs and the path
used for later persistence. -/
def loadConfigsWithPath (ju : JsonUnmarshal) (env : LoadEnv) :
    Except String (List AuthConfig × String) :=
  let jsonData := env.kiroAuthToken
  if jsonData ≠ "" ∧ env.statFileOk jsonData then
    match loadConfigsFromFile ju env jsonData with
    | Except.error e => Except.error e
    | Except.ok configs => Except.ok (configs, jsonData)
  else if env.statFileOk defaultConfigFile then
    match loadConfigsFromFile ju env defaultConfigFile with
    | Except.error e => Except.error e
    | Except.ok configs => Except.ok (configs, defaultConfigFile)
  else if jsonData = "" then
    Except.ok ([], defaultConfigFile)
  else
    match parseJSONConfig ju jsonData with
    | Except.error e =>
      Except.error ("failed to parse KIRO_AUTH_TOKEN: " ++ e)
    | Except.ok configs =>
      if configs.length = 0 then Except.ok ([], defaultConfigFile)
      else
        let validConfigs := processConfigs configs
        if validConfigs.length = 0 then Except.ok ([], defaultConfigFile)
        else Except.ok (validConfigs, defaultConfigFile)

/-- Modelled from the spec: one decoded backend event-stream frame (the
parser package is not among the provided sources): the header block bytes
and the payload bytes. -/
structure CompleteFrame where
  headers : List Nat
  payload : List Nat
  deriving Repr, DecidableEq

/-- Big-endian 32-bit unsigned read of the first four bytes of a buffer. -/
def be32 (l : List Nat) : Nat :=
  l.getD 0 0 * 16777216 + l.getD 1 0 * 65536 + l.getD 2 0 * 256 + l.getD 3 0

/-- Modelled from the spec: the Frame Decoder's state between calls — the
buffered incomplete tail, and a flag set once a corruption error has
terminated the stream for this connection. -/
structure DecoderState where
  buffer : List Nat
  dead : Bool
  deriving Repr, DecidableEq

/-- Modelled from the spec: validate and split one fully buffered frame of
the given total length: [total length : 4][header length : 4]
[headers][payload][checksum : 4].  The frame is rejected (corruption) when
the lengths are inconsistent or the trailing checksum does not match; the
concrete checksum algorithm is an upstream protocol detail and is a
parameter. -/
def parseFrame (crc : List Nat → Nat) (bytes : List Nat) :
    Option CompleteFrame :=
  let totalLen := bytes.length
  let headerLen := be32 (bytes.drop 4)
  if totalLen < 12 + headerLen then none
  else if be32 (bytes.drop (totalLen - 4)) ≠ crc (bytes.take (totalLen - 4))
  then none
  else
    some { headers := (bytes.drop 8).take headerLen,
           payload := (bytes.drop (8 + headerLen)).take
             (totalLen - 12 - headerLen) }

/-- Modelled from the spec: greedily extract every complete frame from the
buffered bytes.  Fewer than four bytes, or fewer bytes than the announced
total length: suspend, keeping the tail buffered.  An announced length
smaller than the fixed overhead, or a frame rejected by parseFrame:
corruption, terminating the stream.  Otherwise emit the frame and continue
on the remaining bytes. -/
def drain (crc : List Nat → Nat) (buf : List Nat) :
    List CompleteFrame × DecoderState :=
  if _h4 : buf.length < 4 then ([], { buffer := buf, dead := false })
  else
    let totalLen := be32 buf
    if totalLen < 12 then ([], { buffer := buf, dead := true })
    else if _hwait : buf.length < totalLen then
      ([], { buffer := buf, dead := false })
    else
      match parseFrame crc (buf.take totalLen) with
      | none => ([], { buffer := buf, dead := true })
      | some f =>
        let rest := drain crc (buf.drop totalLen)
        (f :: rest.1, rest.2)
termination_by buf.length
decreasing_by
  simp only [List.length_drop]
  omega

/-- Modelled from the spec: Frame Decoder feed(bytes) — append the new
chunk to the buffered tail and drain all complete frames; a terminated
(corrupted) stream accepts no further input. -/
def feed (crc : List Nat → Nat) (s : DecoderState) (bytes : List Nat) :
    List CompleteFrame × DecoderState :=
  if s.dead then ([], s) else drain crc (s.buffer ++ bytes)

/-- Feed a list of chunks in order, concatenating the emitted frames. -/
def feedChunks (crc : List Nat → Nat) (s : DecoderState) :
    List (List Nat) → List CompleteFrame × DecoderState
  | [] => ([], s)
  | chunk :: rest =>
    let r1 := feed crc s chunk
    let r2 := feedChunks crc r1.2 rest
    (r1.1 ++ r2.1, r2.2)

/-- The decoder state at the start of a connection. -/
def initState : DecoderState := { buffer := [], dead := false }

/-- A decoder state is quiescent when, unless the stream is terminated,
draining its residual buffer again makes no progress. -/
def Quiescent (crc : List Nat → Nat) (s : DecoderState) : Prop :=
  s.dead = false → drain crc s.buffer = ([], s)

/-- The admission invariant of the credential pool: a non-empty refresh
token, and for the IdC auth variant non-empty client id and client
secret. -/
def ValidCredential (c : AuthConfig) : Prop :=
  c.refreshToken ≠ "" ∧
    (c.authType = AuthMethodIdC → c.clientID ≠ "" ∧ c.clientSecret ≠ "")

instance (c : AuthConfig) : Decidable (ValidCredential c) := by
  unfold ValidCredential; infer_instance

/-! Concrete sample data used to instantiate the theorems below. -/

/-- A valid Social credential. -/
def sampleA : AuthConfig := ⟨"Social", "tokenA", "", "", false⟩

/-- A valid IdC credential. -/
def sampleB : AuthConfig := ⟨"IdC", "tokenB", "clientB", "secretB", false⟩

/-- A valid but disabled Social credential. -/
def sampleC : AuthConfig := ⟨"Social", "tokenC", "", "", true⟩

/-- An invalid IdC credential: client id and secret missing. -/
def sampleBadIdC : AuthConfig := ⟨"IdC", "tokenD", "", "", false⟩

/-- A credential submitted with an empty auth type. -/
def sampleNoAuth : AuthConfig := ⟨"", "tokenE", "", "", false⟩

/-- A service holding three credentials. -/
def sampleState : AuthServiceState :=
  ⟨[sampleA, sampleB, sampleC], [sampleA, sampleB, sampleC]⟩

/-- A service with an empty pool. -/
def emptyState : AuthServiceState := ⟨[], []⟩

/-- Unmarshal outcomes for an input that is valid JSON in neither shape. -/
def juNone : JsonUnmarshal := ⟨fun _ => none, fun _ => none⟩

/-- Unmarshal outcomes for an input that parses as a single config object
but not as an array. -/
def juSingle : JsonUnmarshal := ⟨fun _ => none, fun _ => some sampleA⟩

/-- An environment whose KIRO_AUTH_TOKEN holds a malformed JSON string and
where no config file exists. -/
def envBad : LoadEnv := ⟨"oops", fun _ => false, fun _ => some "oops"⟩

/-- One minimal wire frame: total length 12, empty headers, empty payload,
checksum 0 (matching the all-zero checksum function). -/
def frameBytes : List Nat := [0, 0, 0, 12, 0, 0, 0, 0, 0, 0, 0, 0]

/-! Unfolding lemmas for the decoder loop, one per branch. -/

theorem drain_short (crc : List Nat → Nat) (buf : List Nat)
    (h : buf.length < 4) :
    drain crc buf = ([], { buffer := buf, dead := false }) := by
  rw [drain]; simp [h]

theorem drain_bad_len (crc : List Nat → Nat) (buf : List Nat)
    (h4 : ¬ buf.length < 4) (h : be32 buf < 12) :
    drain crc buf = ([], { buffer := buf, dead := true }) := by
  rw [drain]; simp [h4, h]

theorem drain_wait (crc : List Nat → Nat) (buf : List Nat)
    (h4 : ¬ buf.length < 4) (h12 : ¬ be32 buf < 12)
    (hw : buf.length < be32 buf) :
    drain crc buf = ([], { buffer := buf, dead := false }) := by
  rw [drain]; simp [h4, h12, hw]

theorem drain_corrupt (crc : List Nat → Nat) (buf : List Nat)
    (h4 : ¬ buf.length < 4) (h12 : ¬ be32 buf < 12)
    (hw : ¬ buf.length < be32 buf)
    (hp : parseFrame crc (buf.take (be32 buf)) = none) :
    drain crc buf = ([], { buffer := buf, dead := true }) := by
  rw [drain]; simp [h4, h12, hw, hp]

theorem drain_emit (crc : List Nat → Nat) (buf : List Nat) (f : CompleteFrame)
    (h4 : ¬ buf.length < 4) (h12 : ¬ be32 buf < 12)
    (hw : ¬ buf.length < be32 buf)
    (hp : parseFrame crc (buf.take (be32 buf)) = some f) :
    drain crc buf =
      (f :: (drain crc (buf.drop (be32 buf))).1,
       (drain crc (buf.drop (be32 buf))).2) := by
  rw [drain]; simp [h4, h12, hw, hp]

theorem be32_append (buf ext : List Nat) (h : 4 ≤ buf.length) :
    be32 (buf ++ ext) = be32 buf := by
  unfold be32
  rw [List.getD_append buf ext 0 0 (by omega),
      List.getD_append buf ext 0 1 (by omega),
      List.getD_append buf ext 0 2 (by omega),
      List.getD_append buf ext 0 3 (by omega)]

/-- Draining a buffer extended on the right emits the frames of the original
buffer first, then behaves like feeding the extension to the resulting
state. -/
theorem drain_append_aux (crc : List Nat → Nat) :
    ∀ (n : Nat) (buf ext : List Nat), buf.length ≤ n →
      (drain crc (buf ++ ext)).1 =
        (drain crc buf).1 ++ (feed crc (drain crc buf).2 ext).1 := by
  intro n
  induction n with
  | zero =>
    intro buf ext hlen
    rw [drain_short crc buf (by omega)]
    simp [feed]
  | succ n ih =>
    intro buf ext hlen
    by_cases h4 : buf.length < 4
    · rw [drain_short crc buf h4]
      simp [feed]
    · have h4x : ¬ (buf ++ ext).length < 4 := by
        rw [List.length_append]; omega
      have hbe : be32 (buf ++ ext) = be32 buf := be32_append buf ext (by omega)
      by_cases h12 : be32 buf < 12
      · rw [drain_bad_len crc buf h4 h12,
            drain_bad_len crc (buf ++ ext) h4x (by rw [hbe]; exact h12)]
        simp [feed]
      · by_cases hw : buf.length < be32 buf
        · rw [drain_wait crc buf h4 h12 hw]
          simp [feed]
        · have hle : be32 buf ≤ buf.length := by omega
          have htake : (buf ++ ext).take (be32 buf) = buf.take (be32 buf) :=
            List.take_append_of_le_length hle
          have hwx : ¬ (buf ++ ext).length < be32 buf := by
            rw [List.length_append]; omega
          have hdrop : (buf ++ ext).drop (be32 buf) = buf.drop (be32 buf) ++ ext :=
            List.drop_append_of_le_length hle
          cases hp : parseFrame crc (buf.take (be32 buf)) with
          | none =>
            rw [drain_corrupt crc buf h4 h12 hw hp,
                drain_corrupt crc (buf ++ ext) h4x (by rw [hbe]; exact h12)
                  (by rw [hbe]; exact hwx) (by rw [hbe, htake]; exact hp)]
            simp [feed]
          | some f =>
            rw [drain_emit crc buf f h4 h12 hw hp,
                drain_emit crc (buf ++ ext) f h4x (by rw [hbe]; exact h12)
                  (by rw [hbe]; exact hwx) (by rw [hbe, htake]; exact hp)]
            rw [hbe, hdrop]
            have ihh := ih (buf.drop (be32 buf)) ext
              (by rw [List.length_drop]; omega)
            simp only [ihh, feed]
            simp

/-- Draining an appended buffer equals draining the first part, then
feeding the rest. -/
theorem drain_append (crc : List Nat → Nat) (buf ext : List Nat) :
    (drain crc (buf ++ ext)).1 =
      (drain crc buf).1 ++ (feed crc (drain crc buf).2 ext).1 :=
  drain_append_aux crc buf.length buf ext (Nat.le_refl _)

/-- The state left by drain is quiescent: drain never stops while a complete
frame is still buffered. -/
theorem drain_quiescent_aux (crc : List Nat → Nat) :
    ∀ (n : Nat) (buf : List Nat), buf.length ≤ n →
      Quiescent crc (drain crc buf).2 := by
  intro n
  induction n with
  | zero =>
    intro buf hlen
    rw [drain_short crc buf (by omega)]
    intro _
    exact drain_short crc buf (by omega)
  | succ n ih =>
    intro buf hlen
    by_cases h4 : buf.length < 4
    · rw [drain_short crc buf h4]
      intro _
      exact drain_short crc buf h4
    · by_cases h12 : be32 buf < 12
      · rw [drain_bad_len crc buf h4 h12]
        intro hdead
        simp at hdead
      · by_cases hw : buf.length < be32 buf
        · rw [drain_wait crc buf h4 h12 hw]
          intro _
          exact drain_wait crc buf h4 h12 hw
        · cases hp : parseFrame crc (buf.take (be32 buf)) with
          | none =>
            rw [drain_corrupt crc buf h4 h12 hw hp]
            intro hdead
            simp at hdead
          | some f =>
            rw [drain_emit crc buf f h4 h12 hw hp]
            exact ih (buf.drop (be32 buf)) (by rw [List.length_drop]; omega)

/-- The state left by drain is quiescent. -/
theorem drain_quiescent (crc : List Nat → Nat) (buf : List Nat) :
    Quiescent crc (drain crc buf).2 :=
  drain_quiescent_aux crc buf.length buf (Nat.le_refl _)

/-- Feeding a concatenation of two byte strings emits the frames of feeding
them one after the other. -/
theorem feed_append (crc : List Nat → Nat) (s : DecoderState)
    (a b : List Nat) :
    (feed crc s (a ++ b)).1 =
      (feed crc s a).1 ++ (feed crc (feed crc s a).2 b).1 := by
  by_cases hd : s.dead
  · simp [feed, hd]
  · simp only [feed, hd, if_neg, Bool.false_eq_true, not_false_iff]
    rw [← List.append_assoc]
    exact drain_append crc (s.buffer ++ a) b

/-- The state left by feed is quiescent. -/
theorem feed_quiescent (crc : List Nat → Nat) (s : DecoderState)
    (bytes : List Nat) : Quiescent crc (feed crc s bytes).2 := by
  by_cases hd : s.dead
  · simp only [feed, hd, if_pos]
    intro hdead
    rw [hd] at hdead
    simp at hdead
  · simp only [feed, hd, if_neg, Bool.false_eq_true, not_false_iff]
    exact drain_quiescent crc (s.buffer ++ bytes)

/-- Feeding chunks one by one from a quiescent state emits exactly the
frames of feeding their concatenation at once. -/
theorem feedChunks_flatten (crc : List Nat → Nat) :
    ∀ (chunks : List (List Nat)) (s : DecoderState), Quiescent crc s →
      (feedChunks crc s chunks).1 = (feed crc s chunks.flatten).1 := by
  intro chunks
  induction chunks with
  | nil =>
    intro s hq
    by_cases hd : s.dead
    · simp [feedChunks, feed, hd]
    · have hq2 := hq (by simp at hd; exact hd)
      simp [feedChunks, feed, hd, hq2]
  | cons chunk rest ih =>
    intro s hq
    simp only [feedChunks, List.flatten_cons]
    rw [feed_append crc s chunk rest.flatten]
    rw [ih (feed crc s chunk).2 (feed_quiescent crc s chunk)]

theorem withDefaultAuthType_refreshToken (config : AuthConfig) :
    (withDefaultAuthType config).refreshToken = config.refreshToken := by
  unfold withDefaultAuthType; split <;> rfl

theorem withDefaultAuthType_clientID (config : AuthConfig) :
    (withDefaultAuthType config).clientID = config.clientID := by
  unfold withDefaultAuthType; split <;> rfl

theorem withDefaultAuthType_clientSecret (config : AuthConfig) :
    (withDefaultAuthType config).clientSecret = config.clientSecret := by
  unfold withDefaultAuthType; split <;> rfl

/-- The defaulted config satisfies the admission invariant as soon as the
original passed both AddConfig / processConfigs guards. -/
theorem withDefaultAuthType_valid (config : AuthConfig)
    (h1 : ¬ config.refreshToken = "")
    (h2 : ¬ ((withDefaultAuthType config).authType = AuthMethodIdC ∧
      ((withDefaultAuthType config).clientID = "" ∨
        (withDefaultAuthType config).clientSecret = ""))) :
    ValidCredential (withDefaultAuthType config) := by
  push_neg at h2
  constructor
  · rw [withDefaultAuthType_refreshToken]; exact h1
  · exact h2

/-- Every credential surviving the processConfigs load-time filter satisfies
the admission invariant. -/
theorem processConfigs_valid (cfgs : List AuthConfig) :
    ∀ c ∈ processConfigs cfgs, ValidCredential c := by
  induction cfgs with
  | nil => simp [processConfigs]
  | cons config rest ih =>
    intro c hc
    rw [processConfigs] at hc
    by_cases h1 : config.refreshToken = ""
    · rw [if_pos h1] at hc; exact ih c hc
    · rw [if_neg h1] at hc
      simp only [] at hc
      by_cases h2 : (withDefaultAuthType config).authType = AuthMethodIdC ∧
          ((withDefaultAuthType config).clientID = "" ∨
            (withDefaultAuthType config).clientSecret = "")
      · rw [if_pos h2] at hc; exact ih c hc
      · rw [if_neg h2] at hc
        by_cases h3 : (withDefaultAuthType config).disabled
        · rw [if_pos h3] at hc; exact ih c hc
        · rw [if_neg h3] at hc
          rcases List.mem_cons.mp hc with hEq | hmem
          · subst hEq; exact withDefaultAuthType_valid config h1 h2
          · exact ih c hmem

/-- Claim C1: every credential admitted to the pool — filtered in from
configuration by processConfigs at load time, or appended by a successful
AuthService.AddConfig at runtime — has a non-empty refresh token and, when
its auth variant is IdC, non-empty client id and client secret; violating
configs are filtered out at load or rejected at add. -/
theorem c1_pool_admission_invariant (cfgs : List AuthConfig)
    (as : AuthServiceState) (config : AuthConfig)
    (hpool : ∀ c ∈ as.configs, ValidCredential c)
    (hok : (AddConfig as config).err = none) :
    (∀ c ∈ processConfigs cfgs, ValidCredential c) ∧
    (∀ c ∈ (AddConfig as config).state.configs, ValidCredential c) := by
  refine ⟨processConfigs_valid cfgs, ?_⟩
  intro c hc
  rw [AddConfig] at hok hc
  by_cases h1 : config.refreshToken = ""
  · rw [if_pos h1] at hok; simp at hok
  · rw [if_neg h1] at hok hc
    simp only [] at hok hc
    by_cases h2 : (withDefaultAuthType config).authType = AuthMethodIdC ∧
        ((withDefaultAuthType config).clientID = "" ∨
          (withDefaultAuthType config).clientSecret = "")
    · rw [if_pos h2] at hok; simp at hok
    · rw [if_neg h2] at hc
      rcases List.mem_append.mp hc with hmem | hone
      · exact hpool c hmem
      · have hEq := List.mem_singleton.mp hone
        subst hEq
        exact withDefaultAuthType_valid config h1 h2

/-- Witness for C1: a concrete load filtering out an invalid IdC entry, and
a concrete successful add of a credential with defaulted auth type. -/
theorem c1_pool_admission_invariant_witness :
    (∀ c ∈ processConfigs [sampleBadIdC, sampleA], ValidCredential c) ∧
    (∀ c ∈ (AddConfig emptyState sampleNoAuth).state.configs,
      ValidCredential c) :=
  c1_pool_admission_invariant [sampleBadIdC, sampleA] emptyState sampleNoAuth
    (by intro c hc; simp [emptyState] at hc) (by decide)

/-- Claim C2 (refuted — code bug): neither AuthService.AddConfig nor
AuthService.RemoveConfig performs any file write, although
SaveConfigsToFile — which would write the full credential list with
owner-only permission 0o600 — exists for exactly that purpose; the
write-on-every-add/remove promised by the spec (and by the code's own log
messages and comments) never happens. -/
theorem c2_add_remove_perform_no_write (as : AuthServiceState)
    (config : AuthConfig) (i : Int) (path : String)
    (configs : List AuthConfig) :
    (AddConfig as config).writes = [] ∧
    (RemoveConfig as i).writes = [] ∧
    (SaveConfigsToFile path configs).perm = 0o600 := by
  refine ⟨?_, ?_, rfl⟩
  · by_cases h1 : config.refreshToken = ""
    · rw [AddConfig, if_pos h1]
    · rw [AddConfig, if_neg h1]
      simp only []
      by_cases h2 : (withDefaultAuthType config).authType = AuthMethodIdC ∧
          ((withDefaultAuthType config).clientID = "" ∨
            (withDefaultAuthType config).clientSecret = "")
      · rw [if_pos h2]
      · rw [if_neg h2]
  · by_cases h : i < 0 ∨ (as.configs.length : Int) ≤ i
    · rw [RemoveConfig, if_pos h]
    · rw [RemoveConfig, if_neg h]

/-- Claim C3: removing the credential at a valid index k succeeds, keeps
all credentials before k at their index, moves every credential formerly at
an index above k down by one, and any acquisition performed on the rebuilt
pool immediately afterwards returns one of the remaining credentials —
never the removed entry — whatever the runtime eligibility of the
credentials is. -/
theorem c3_remove_shifts_and_fresh_acquire (as : AuthServiceState) (k : Nat)
    (hk : k < as.configs.length) :
    (RemoveConfig as (k : Int)).err = none ∧
    (RemoveConfig as (k : Int)).state.configs.length =
      as.configs.length - 1 ∧
    (∀ j, j < k →
      (RemoveConfig as (k : Int)).state.configs[j]? = as.configs[j]?) ∧
    (∀ j, k < j → j < as.configs.length →
      (RemoveConfig as (k : Int)).state.configs[j - 1]? =
        as.configs[j]?) ∧
    (∀ (eligible : AuthConfig → Bool) (c : AuthConfig),
      getBestToken eligible (RemoveConfig as (k : Int)).state.tmPool =
        some c →
      c ∈ (RemoveConfig as (k : Int)).state.configs) := by
  have hguard : ¬ ((k : Int) < 0 ∨ (as.configs.length : Int) ≤ (k : Int)) := by
    push_neg; omega
  rw [RemoveConfig, if_neg hguard]
  simp only [Int.toNat_natCast]
  have hlen_take : (as.configs.take k).length = k := by
    rw [List.length_take]; exact min_eq_left (le_of_lt hk)
  refine ⟨by trivial, ?_, ?_, ?_, ?_⟩
  · rw [List.length_append, hlen_take, List.length_drop]; omega
  · intro j hj
    rw [List.getElem?_append, if_pos (by rw [hlen_take]; exact hj),
        List.getElem?_take, if_pos hj]
  · intro j hjk hjlen
    rw [List.getElem?_append_right (by rw [hlen_take]; omega), hlen_take,
        List.getElem?_drop]
    congr 1
    omega
  · intro eligible c hfind
    rw [getBestToken] at hfind
    have hmem := List.mem_of_find?_eq_some hfind
    simpa [NewTokenManager] using hmem

/-- Witness for C3: removing index 1 from a three-credential pool. -/
theorem c3_remove_shifts_and_fresh_acquire_witness :
    (RemoveConfig sampleState ((1 : Nat) : Int)).err = none ∧
    (RemoveConfig sampleState ((1 : Nat) : Int)).state.configs.length =
      sampleState.configs.length - 1 ∧
    (∀ j, j < 1 →
      (RemoveConfig sampleState ((1 : Nat) : Int)).state.configs[j]? =
        sampleState.configs[j]?) ∧
    (∀ j, 1 < j → j < sampleState.configs.length →
      (RemoveConfig sampleState ((1 : Nat) : Int)).state.configs[j - 1]? =
        sampleState.configs[j]?) ∧
    (∀ (eligible : AuthConfig → Bool) (c : AuthConfig),
      getBestToken eligible
        (RemoveConfig sampleState ((1 : Nat) : Int)).state.tmPool = some c →
      c ∈ (RemoveConfig sampleState ((1 : Nat) : Int)).state.configs) :=
  c3_remove_shifts_and_fresh_acquire sampleState 1 (by decide)

/-- Claim C4: RemoveConfig reports an index error exactly when the index is
negative or not below the config count, and in that case the service state
is left unchanged. -/
theorem c4_remove_index_guard (as : AuthServiceState) (i : Int) :
    ((RemoveConfig as i).err.isSome ↔
      i < 0 ∨ (as.configs.length : Int) ≤ i) ∧
    ((RemoveConfig as i).err.isSome → (RemoveConfig as i).state = as) := by
  by_cases h : i < 0 ∨ (as.configs.length : Int) ≤ i
  · rw [RemoveConfig, if_pos h]
    simp [h]
  · rw [RemoveConfig, if_neg h]
    simp [h]

/-- Witness for C4: removing index -1 from the empty pool errors and leaves
the state unchanged. -/
theorem c4_remove_index_guard_witness :
    ((RemoveConfig emptyState (-1)).err.isSome ↔
      (-1 : Int) < 0 ∨ (emptyState.configs.length : Int) ≤ -1) ∧
    ((RemoveConfig emptyState (-1)).err.isSome →
      (RemoveConfig emptyState (-1)).state = emptyState) :=
  c4_remove_index_guard emptyState (-1)

/-- Counterexample to C5 as stated: submitting a config with an empty auth
type and non-empty refresh token succeeds, but the element appended is the
config with its auth type rewritten to Social — not the submitted config
itself. -/
theorem c5_counterexample :
    (AddConfig emptyState sampleNoAuth).err = none ∧
    (AddConfig emptyState sampleNoAuth).state.configs ≠
      emptyState.configs ++ [sampleNoAuth] := by
  decide

/-- Claim C5 (amended): AddConfig errors exactly when the submitted refresh
token is empty, or the submitted auth type is IdC with an empty client id or
client secret; on error the state is unchanged, and on success the submitted
config — with an empty auth type defaulted to Social — is appended at the
end of the credential list. -/
theorem c5_add_appends_defaulted (as : AuthServiceState)
    (config : AuthConfig) :
    ((AddConfig as config).err.isSome ↔
      (config.refreshToken = "" ∨ (config.authType = AuthMethodIdC ∧
        (config.clientID = "" ∨ config.clientSecret = "")))) ∧
    ((AddConfig as config).err.isSome → (AddConfig as config).state = as) ∧
    ((AddConfig as config).err = none →
      (AddConfig as config).state.configs =
        as.configs ++ [withDefaultAuthType config]) := by
  by_cases h1 : config.refreshToken = ""
  · rw [AddConfig, if_pos h1]
    simp [h1]
  · rw [AddConfig, if_neg h1]
    simp only []
    by_cases h2 : (withDefaultAuthType config).authType = AuthMethodIdC ∧
        ((withDefaultAuthType config).clientID = "" ∨
          (withDefaultAuthType config).clientSecret = "")
    · have ha : ¬ config.authType = "" := by
        intro hempty
        have hsoc : (withDefaultAuthType config).authType = AuthMethodSocial := by
          unfold withDefaultAuthType; rw [if_pos hempty]
        rw [hsoc] at h2
        exact absurd h2.1 (by decide)
      have hEqw : withDefaultAuthType config = config := by
        unfold withDefaultAuthType; rw [if_neg ha]
      rw [hEqw] at h2
      rw [if_pos (by rw [hEqw]; exact h2)]
      simp [h1, h2]
    · rw [if_neg h2]
      have hrhs : ¬ (config.refreshToken = "" ∨
          (config.authType = AuthMethodIdC ∧
            (config.clientID = "" ∨ config.clientSecret = ""))) := by
        rintro (hc | ⟨hidc, hcc⟩)
        · exact h1 hc
        · have ha : ¬ config.authType = "" := by rw [hidc]; decide
          have hEqw : withDefaultAuthType config = config := by
            unfold withDefaultAuthType; rw [if_neg ha]
          exact h2 (by rw [hEqw]; exact ⟨hidc, hcc⟩)
      simp [hrhs]

/-- Witness for C5 (amended): adding an incomplete IdC credential fails and
leaves the pool unchanged. -/
theorem c5_add_appends_defaulted_witness :
    ((AddConfig emptyState sampleBadIdC).err.isSome ↔
      (sampleBadIdC.refreshToken = "" ∨
        (sampleBadIdC.authType = AuthMethodIdC ∧
          (sampleBadIdC.clientID = "" ∨ sampleBadIdC.clientSecret = "")))) ∧
    ((AddConfig emptyState sampleBadIdC).err.isSome →
      (AddConfig emptyState sampleBadIdC).state = emptyState) ∧
    ((AddConfig emptyState sampleBadIdC).err = none →
      (AddConfig emptyState sampleBadIdC).state.configs =
        emptyState.configs ++ [withDefaultAuthType sampleBadIdC]) :=
  c5_add_appends_defaulted emptyState sampleBadIdC

/-- Claim C7: an input string that unmarshals neither as an array of configs
nor as a single config object makes parseJSONConfig fail, makes loading from
a file with that content fail, and makes the whole startup load fail with an
error — never a pool. -/
theorem c7_malformed_config_load_fails (ju : JsonUnmarshal) (env : LoadEnv)
    (s : String) (ha : ju.asArray s = none) (ho : ju.asObject s = none) :
    (∃ e, parseJSONConfig ju s = Except.error e) ∧
    (∀ path, env.readFile path = some s →
      ∃ e, loadConfigsFromFile ju env path = Except.error e) ∧
    (env.kiroAuthToken = s → s ≠ "" → env.statFileOk s = false →
      env.statFileOk defaultConfigFile = false →
      ∃ e, loadConfigsWithPath ju env = Except.error e) := by
  have hp : parseJSONConfig ju s = Except.error "invalid JSON format" := by
    simp [parseJSONConfig, ha, ho]
  refine ⟨⟨_, hp⟩, ?_, ?_⟩
  · intro path hread
    have hf : loadConfigsFromFile ju env path =
        Except.error ("failed to parse config file: " ++
          "invalid JSON format") := by
      simp [loadConfigsFromFile, hread, hp]
    exact ⟨_, hf⟩
  · intro htok hne hstat hstatd
    have hl : loadConfigsWithPath ju env =
        Except.error ("failed to parse KIRO_AUTH_TOKEN: " ++
          "invalid JSON format") := by
      simp [loadConfigsWithPath, htok, hne, hstat, hstatd, hp]
    exact ⟨_, hl⟩

/-- Witness for C7: the string oops with failing unmarshal oracles. -/
theorem c7_malformed_config_load_fails_witness :
    (∃ e, parseJSONConfig juNone "oops" = Except.error e) ∧
    (∀ path, envBad.readFile path = some "oops" →
      ∃ e, loadConfigsFromFile juNone envBad path = Except.error e) ∧
    (envBad.kiroAuthToken = "oops" → "oops" ≠ "" →
      envBad.statFileOk "oops" = false →
      envBad.statFileOk defaultConfigFile = false →
      ∃ e, loadConfigsWithPath juNone envBad = Except.error e) :=
  c7_malformed_config_load_fails juNone envBad "oops" rfl rfl

/-- Claim C8: feeding the same logical byte stream to the frame decoder
under any two chunkings yields an identical sequence of complete frames,
for every checksum function. -/
theorem c8_split_invariance (crc : List Nat → Nat)
    (chunks1 chunks2 : List (List Nat))
    (h : chunks1.flatten = chunks2.flatten) :
    (feedChunks crc initState chunks1).1 =
      (feedChunks crc initState chunks2).1 := by
  have hq : Quiescent crc initState := by
    intro _
    exact drain_short crc [] (by simp)
  rw [feedChunks_flatten crc chunks1 initState hq,
      feedChunks_flatten crc chunks2 initState hq, h]

/-- Witness for C8: one complete frame delivered whole versus split in the
middle of its length prefix region. -/
theorem c8_split_invariance_witness :
    (feedChunks (fun _ => 0) initState [frameBytes]).1 =
      (feedChunks (fun _ => 0) initState
        [[0, 0, 0, 12, 0], [0, 0, 0, 0, 0, 0, 0]]).1 :=
  c8_split_invariance (fun _ => 0) [frameBytes]
    [[0, 0, 0, 12, 0], [0, 0, 0, 0, 0, 0, 0]] (by decide)

/-- Claim C9: parseJSONConfig wraps an input that unmarshals as a single
config object (but not as an array) into a one-element list, and fails on
an input that unmarshals as neither. -/
theorem c9_parse_single_object (ju : JsonUnmarshal) (s : String)
    (c : AuthConfig) (ha : ju.asArray s = none) :
    (ju.asObject s = some c → parseJSONConfig ju s = Except.ok [c]) ∧
    (ju.asObject s = none →
      ∃ e, parseJSONConfig ju s = Except.error e) := by
  constructor
  · intro ho
    simp [parseJSONConfig, ha, ho]
  · intro ho
    have hp : parseJSONConfig ju s = Except.error "invalid JSON format" := by
      simp [parseJSONConfig, ha, ho]
    exact ⟨_, hp⟩

/-- Witness for C9: an input unmarshalling only as a single object. -/
theorem c9_parse_single_object_witness :
    (juSingle.asObject "x" = some sampleA →
      parseJSONConfig juSingle "x" = Except.ok [sampleA]) ∧
    (juSingle.asObject "x" = none →
      ∃ e, parseJSONConfig juSingle "x" = Except.error e) :=
  c9_parse_single_object juSingle "x" sampleA rfl

/-- Claim C10: HasAvailableToken is true exactly when the config count is
positive, and it is insensitive to every per-credential attribute and to
the token manager's pool state: rewriting every credential (for example
disabling all of them) or replacing the manager's pool entirely does not
change its answer. -/
theorem c10_hasAvailableToken_only_counts (as : AuthServiceState)
    (f : AuthConfig → AuthConfig) (pool : List AuthConfig) :
    (HasAvailableToken as = true ↔ 0 < GetConfigCount as) ∧
    (HasAvailableToken { configs := as.configs.map f, tmPool := pool } =
      HasAvailableToken as) := by
  simp [HasAvailableToken, GetConfigCount]

end Kiro2api
